import Mathlib

/-!
Verification of the photo-appendix builder (image-to-Word repository).

Shallow embedding of the algorithmic core of `src/main.py`,
`src/extract_photo_nrs.py` and `src/move_photos.py`:

* the compression auto-tuner `auto_tune_compression` (main.py lines 239-276),
* the size estimator `estimate_docx_size_bytes` (main.py lines 200-236),
* the natural sort key `natural_sort_key_string` (main.py lines 110-116),
* the report-list normalizer (extract_photo_nrs.py lines 53-55),
* the move/cleanup normalizer `normalize_photo_numbers` (move_photos.py line 34),
* the Excel-driven selection loop of `main_orchestrator` (main.py lines 467-480).

Python machine integers are modelled as `Int` (arbitrary precision in Python,
so no overflow modelling is needed); byte counts as `Nat`; the single
floating-point expression of the estimator (`int(overhead + avg * n)`) is
modelled with exact rational arithmetic and `Int.floor` (the truncation
`int(...)` agrees with the floor on the non-negative values arising there).
The external JPEG encoder is an opaque collaborator: it is modelled as a
function parameter `encode` returning `Option Nat` (`none` models the
exception path that the source catches and skips).
-/

/-! ### Constants (main.py lines 39-59) -/

/-- `DOCX_OVERHEAD_BYTES: int = 1_500_000` (main.py line 43). -/
def DOCX_OVERHEAD_BYTES : Int := 1500000

/-- `QUALITY_MIN: int = 30` (main.py line 46). -/
def QUALITY_MIN : Int := 30

/-- `QUALITY_MAX: int = 90` (main.py line 47). -/
def QUALITY_MAX : Int := 90

/-- `MAX_DIM_MIN: int = 800` (main.py line 48). -/
def MAX_DIM_MIN : Int := 800

/-- `MAX_DIM_MAX: int = 2400` (main.py line 49). -/
def MAX_DIM_MAX : Int := 2400

/-- `QUALITY_STEP: int = 5` (main.py line 52). -/
def QUALITY_STEP : Int := 5

/-- `MAX_DIM_STEP: int = 200` (main.py line 53). -/
def MAX_DIM_STEP : Int := 200

/-- `ESTIMATE_SAMPLE_MAX: int = 6` (main.py line 56). -/
def ESTIMATE_SAMPLE_MAX : Nat := 6

/-! ### Natural sort key (main.py lines 110-116)

`natural_sort_key_string` does `re.split(r"(\d+)", cleaned)` where
`cleaned = str(value).strip()`, then maps every all-digit part to `int(part)`.
`re.split` with a capturing group returns the (possibly empty) non-digit text
before, between and after the maximal digit runs, interleaved with the digit
runs themselves; in particular an input ending in digits yields a trailing
empty-string part. -/

/-- A sort-key token: Python's key lists mix `str` and `int` elements. -/
inductive SortTok where
  | str : String → SortTok
  | num : Nat → SortTok
deriving DecidableEq

/-- One left-to-right pass of `re.split(r"(\d+)", s)`: `curDig` says whether
the run currently being accumulated (in `run`, reversed) is a digit run, and
`acc` holds the finished parts in reverse.  The output always alternates
non-digit, digit, non-digit, ..., starting and ending with a possibly empty
non-digit part, exactly as `re.split` with a capturing group does. -/
def splitDigitsAux : List Char → Bool → List Char → List String → List String
  | [], curDig, run, acc =>
      if curDig then ("" :: String.mk run.reverse :: acc).reverse
      else (String.mk run.reverse :: acc).reverse
  | c :: cs, curDig, run, acc =>
      if c.isDigit = curDig then splitDigitsAux cs curDig (c :: run) acc
      else splitDigitsAux cs c.isDigit [c] (String.mk run.reverse :: acc)

/-- `re.split(r"(\d+)", s)` (main.py line 115). -/
def reSplitDigits (s : String) : List String :=
  splitDigitsAux s.data false [] []

/-- Python `str.strip()` for the ASCII whitespace handled by `Char.isWhitespace`. -/
def pyStrip (s : String) : String :=
  String.mk (((s.data.dropWhile Char.isWhitespace).reverse.dropWhile Char.isWhitespace).reverse)

/-- Python `p.isdigit()` for ASCII strings: non-empty and all digits. -/
def strIsDigit (s : String) : Bool :=
  !s.data.isEmpty && s.data.all Char.isDigit

/-- Python `int(p)` on a decimal digit string. -/
def strToNat (s : String) : Nat :=
  s.data.foldl (fun n c => 10 * n + (c.toNat - 48)) 0

/-- `natural_sort_key_string` (main.py lines 110-116):
strip, split on digit runs, convert all-digit parts to integers. -/
def natural_sort_key_string (value : String) : List SortTok :=
  let cleaned := pyStrip value
  let parts := reSplitDigits cleaned
  parts.map (fun p => if strIsDigit p then SortTok.num (strToNat p) else SortTok.str p)

/-- Python `<` on strings: lexicographic comparison of code points. -/
def charListLt : List Char → List Char → Bool
  | [], [] => false
  | [], _ :: _ => true
  | _ :: _, [] => false
  | c :: cs, d :: ds => c < d || (c = d && charListLt cs ds)

/-- Python `<` on key elements.  Same-constructor comparisons follow Python
(`int < int` numerically, `str < str` lexicographically by code point);
Python raises `TypeError` on mixed `int`/`str` comparisons, which never occur
at the same position for the inputs considered here, so the mixed cases below
are an arbitrary total completion. -/
def tokLt : SortTok → SortTok → Bool
  | SortTok.num a, SortTok.num b => a < b
  | SortTok.str a, SortTok.str b => charListLt a.data b.data
  | SortTok.num _, SortTok.str _ => true
  | SortTok.str _, SortTok.num _ => false

/-- Python `<` on key lists: lexicographic, a strict prefix sorts first. -/
def keyLt : List SortTok → List SortTok → Bool
  | [], [] => false
  | [], _ :: _ => true
  | _ :: _, [] => false
  | a :: as, b :: bs => tokLt a b || (a = b && keyLt as bs)

/-- Stable insertion for `sorted(..., key=natural_sort_key_string)`: the new
element `a` (earlier in the original list) goes in front of the first element
whose key is not smaller than `a`'s, so equal keys keep original order. -/
def insertByKey (a : String) : List String → List String
  | [] => [a]
  | b :: bs =>
      if keyLt (natural_sort_key_string b) (natural_sort_key_string a) then
        b :: insertByKey a bs
      else a :: b :: bs

/-- `sorted(required_photo_list, key=natural_sort_key_string)` (main.py line 468):
Python's stable ascending sort, realised as a stable insertion sort. -/
def sortedByKey : List String → List String
  | [] => []
  | a :: as => insertByKey a (sortedByKey as)

/-! ### Size estimator (main.py lines 200-236)

`estimate_docx_size_bytes(image_paths, quality, max_dim)` with the default
`overhead_bytes = DOCX_OVERHEAD_BYTES` and `sample_max = ESTIMATE_SAMPLE_MAX`
(the only call sites use the defaults).  The image type is abstract (`α`);
`size` models `p.stat().st_size` and `encode` models
`compress_image_to_jpeg_bytes` composed with `len`, with `none` standing for
the exception path that the `try/except` skips. -/

/-- Stable insertion for `sorted(image_paths, key=..st_size, reverse=True)`:
`a` (earlier in the original list) stays in front of every later element of
not-larger size, matching Python's stable descending sort. -/
def insertBySizeDesc (size : α → Nat) (a : α) : List α → List α
  | [] => [a]
  | b :: bs =>
      if size a < size b then b :: insertBySizeDesc size a bs
      else a :: b :: bs

/-- `sorted(image_paths, key=lambda p: p.stat().st_size, reverse=True)`
(main.py line 220). -/
def sortBySizeDesc (size : α → Nat) : List α → List α
  | [] => []
  | a :: as => insertBySizeDesc size a (sortBySizeDesc size as)

/-- `sorted_by_size[:min(sample_max, len(sorted_by_size))]` (main.py lines 220-221). -/
def estimateSample (size : α → Nat) (image_paths : List α) : List α :=
  let sorted_by_size := sortBySizeDesc size image_paths
  sorted_by_size.take (min ESTIMATE_SAMPLE_MAX sorted_by_size.length)

/-- `estimate_docx_size_bytes` (main.py lines 200-236).  The arithmetic mean
`avg_size` is a Python float; it is modelled exactly in `ℚ`, and the final
`int(overhead_bytes + avg_size * len(image_paths))` as `Int.floor` (the value
is non-negative, where Python's `int` truncation is the floor). -/
def estimate_docx_size_bytes (encode : Int → Int → α → Option Nat) (size : α → Nat)
    (image_paths : List α) (quality max_dim : Int) : Int :=
  if image_paths.isEmpty then DOCX_OVERHEAD_BYTES
  else
    let sample := estimateSample size image_paths
    let compressed_sizes := sample.filterMap (encode quality max_dim)
    if compressed_sizes.isEmpty then DOCX_OVERHEAD_BYTES + 10000000
    else
      let avg_size : ℚ := (compressed_sizes.sum : ℚ) / (compressed_sizes.length : ℚ)
      ⌊(DOCX_OVERHEAD_BYTES : ℚ) + avg_size * (image_paths.length : ℚ)⌋

/-! ### Auto-tuner (main.py lines 239-276)

`auto_tune_compression(image_paths, target_bytes, start_quality, start_max_dim)`.
The estimator call `estimate_docx_size_bytes(image_paths, quality, max_dim)`
is abstracted into the function parameter `est quality max_dim`; the image
list is fixed over the whole loop in the source. -/

/-- The `while True` loop of `auto_tune_compression` (main.py lines 261-276).
Terminates because each recursive call decreases
`(quality - QUALITY_MIN) + (max_dim - MAX_DIM_MIN)` while both stay bounded
below by the branch guards. -/
def autoTuneLoop (est : Int → Int → Int) (target_bytes quality max_dim : Int) :
    Int × Int × Int :=
  let est_val := est quality max_dim
  if est_val ≤ target_bytes then (quality, max_dim, est_val)
  else if QUALITY_MIN ≤ quality - QUALITY_STEP then
    autoTuneLoop est target_bytes (quality - QUALITY_STEP) max_dim
  else if MAX_DIM_MIN ≤ max_dim - MAX_DIM_STEP then
    autoTuneLoop est target_bytes quality (max_dim - MAX_DIM_STEP)
  else (quality, max_dim, est_val)
termination_by ((quality - QUALITY_MIN).toNat + (max_dim - MAX_DIM_MIN).toNat)
decreasing_by
  · simp only [QUALITY_MIN, QUALITY_STEP, MAX_DIM_MIN] at *; omega
  · simp only [QUALITY_MIN, QUALITY_STEP, MAX_DIM_MIN, MAX_DIM_STEP] at *; omega

/-- `auto_tune_compression` (main.py lines 239-276): clamp the starting
parameters into their bounds (lines 258-259), then run the loop. -/
def auto_tune_compression (est : Int → Int → Int)
    (target_bytes start_quality start_max_dim : Int) : Int × Int × Int :=
  autoTuneLoop est target_bytes
    (max QUALITY_MIN (min QUALITY_MAX start_quality))
    (max MAX_DIM_MIN (min MAX_DIM_MAX start_max_dim))

/-- Number of `estimate_docx_size_bytes` calls made by `autoTuneLoop`:
one call per loop iteration, with the same branch structure. -/
def autoTuneCalls (est : Int → Int → Int) (target_bytes quality max_dim : Int) : Nat :=
  let est_val := est quality max_dim
  if est_val ≤ target_bytes then 1
  else if QUALITY_MIN ≤ quality - QUALITY_STEP then
    1 + autoTuneCalls est target_bytes (quality - QUALITY_STEP) max_dim
  else if MAX_DIM_MIN ≤ max_dim - MAX_DIM_STEP then
    1 + autoTuneCalls est target_bytes quality (max_dim - MAX_DIM_STEP)
  else 1
termination_by ((quality - QUALITY_MIN).toNat + (max_dim - MAX_DIM_MIN).toNat)
decreasing_by
  · simp only [QUALITY_MIN, QUALITY_STEP, MAX_DIM_MIN] at *; omega
  · simp only [QUALITY_MIN, QUALITY_STEP, MAX_DIM_MIN, MAX_DIM_STEP] at *; omega

/-- Number of estimator calls made by `auto_tune_compression`, including the
initial clamping of the starting parameters. -/
def auto_tune_calls (est : Int → Int → Int)
    (target_bytes start_quality start_max_dim : Int) : Nat :=
  autoTuneCalls est target_bytes
    (max QUALITY_MIN (min QUALITY_MAX start_quality))
    (max MAX_DIM_MIN (min MAX_DIM_MAX start_max_dim))

/-! ### Report-list normalizer (extract_photo_nrs.py lines 53-55)

Per-token normalization inside `extract_photo_numbers`:
`cleaned_nr = ''.join(c for c in nr if c.isalnum()).lower()`, then if the
result has more than 3 characters a hyphen is inserted after the 3rd.

Python's `str.isalnum` and `str.lower` are Unicode-aware.  They are modelled
here exactly on the code points any statement below exercises: all of ASCII
(where `isalnum` is `[0-9A-Za-z]` and `lower` is the single-character A-Z to
a-z mapping, agreeing with `Char.isAlphanum`/`Char.toLower`), plus the two
code points of the non-idempotence counterexample, U+0130 (LATIN CAPITAL
LETTER I WITH DOT ABOVE, category Lu, alphanumeric, whose Python lower case
is the two-character sequence `'i'` followed by U+0307 per the Unicode
special-casing table) and U+0307 (COMBINING DOT ABOVE, category Mn, not
alphanumeric).  Other non-ASCII code points occur in no statement below. -/

/-- Python `c.isalnum()` on the code points exercised in this file:
ASCII exactly, plus U+0130 (alphanumeric) and U+0307 (not alphanumeric). -/
def pyIsAlnum (c : Char) : Bool :=
  if c.toNat = 304 then true
  else if c.toNat = 775 then false
  else c.isAlphanum

/-- Python `str.lower` at one character, on the code points exercised in
this file: ASCII exactly, plus the special casing of U+0130, which
lower-cases to `'i'` followed by the combining dot U+0307.  `str.lower` maps
each character to its (possibly multi-character) lower case, concatenated. -/
def pyLowerChar (c : Char) : List Char :=
  if c.toNat = 304 then ['i', Char.ofNat 775]
  else [c.toLower]

/-- `''.join(c for c in nr if c.isalnum()).lower()` (extract_photo_nrs.py
line 53), at character-list level: filter by `isalnum`, then lower-case the
result character-wise. -/
def cleanAlnumLower (cs : List Char) : List Char :=
  ((cs.filter pyIsAlnum).map pyLowerChar).flatten

/-- `cleaned_nr[:3] + '-' + cleaned_nr[3:]` when `len(cleaned_nr) > 3`
(extract_photo_nrs.py lines 54-55). -/
def hyphenAfter3 (cleaned : List Char) : List Char :=
  if 3 < cleaned.length then cleaned.take 3 ++ '-' :: cleaned.drop 3 else cleaned

/-- Character-level body of the report-list normalization. -/
def extractNormalizeL (cs : List Char) : List Char :=
  hyphenAfter3 (cleanAlnumLower cs)

/-- The report-list normalization of one raw token (extract_photo_nrs.py
lines 53-55). -/
def extract_normalize (nr : String) : String :=
  String.mk (extractNormalizeL nr.data)

/-! ### Move/cleanup normalizer (move_photos.py lines 10-36)

The set comprehension on line 34 is exactly
`'100-' + num.split('-')[-1].zfill(4)` for each `num`; note that the code
does not perform the `strip().lower().replace('_', '-')` step that its own
comment (lines 31-33) and docstring example describe. -/

/-- Helper for `splitOnDashL`: prepend character `c` to a split of the tail.
A `'-'` opens a fresh empty segment; anything else extends the first segment. -/
def consSeg (c : Char) : List (List Char) → List (List Char)
  | [] => [[c]]
  | seg :: segs => if c = '-' then [] :: seg :: segs else (c :: seg) :: segs

/-- Python `s.split('-')`: every occurrence of `-` separates, empty string
gives `['']`, adjacent separators give empty segments. -/
def splitOnDashL : List Char → List (List Char)
  | [] => [[]]
  | c :: cs => consSeg c (splitOnDashL cs)

/-- Padding branch of Python `zfill`: the string is shorter than `width`, so
left-pad with `'0'`, keeping a leading `'+'`/`'-'` sign in front. -/
def zfillPad : List Char → Nat → List Char
  | [], width => List.replicate width '0'
  | c :: rest, width =>
      if c = '+' || c = '-' then c :: (List.replicate (width - (c :: rest).length) '0' ++ rest)
      else List.replicate (width - (c :: rest).length) '0' ++ c :: rest

/-- Python `s.zfill(width)`. -/
def zfillL (cs : List Char) (width : Nat) : List Char :=
  if width ≤ cs.length then cs else zfillPad cs width

/-- Character-level body of `'100-' + num.split('-')[-1].zfill(4)`
(move_photos.py line 34). -/
def normalizeMoveL (cs : List Char) : List Char :=
  '1' :: '0' :: '0' :: '-' :: zfillL ((splitOnDashL cs).getLastD []) 4

/-- The per-element normalization of `normalize_photo_numbers`. -/
def normalize_photo_number (num : String) : String :=
  String.mk (normalizeMoveL num.data)

/-- `normalize_photo_numbers` (move_photos.py lines 10-36): the set
comprehension is modelled as the `Finset` of per-element results. -/
def normalize_photo_numbers (photo_numbers : List String) : Finset String :=
  (photo_numbers.map normalize_photo_number).toFinset

/-! ### Excel-driven selection (main.py lines 467-480)

The fragment of `main_orchestrator` that matches the required list from
Excel against the available images: order the required stems (Excel order or
natural sort), build `image_by_stem = dict comprehension` (later duplicates
overwrite earlier ones), then match each stripped stem, collecting hits in
`photos_for_report` and misses in `missing_stems`, without halting. -/

/-- Python `dict.get` on `image_by_stem = (dict of stem to p for p in all_images)`:
a left fold, so a later image with the same stem overwrites an earlier one. -/
def imageByStemGet (stem : α → String) (all_images : List α) (key : String) : Option α :=
  all_images.foldl (fun acc p => if stem p = key then some p else acc) none

/-- The selection loop of `main_orchestrator` (main.py lines 467-480),
returning `(photos_for_report, missing_stems)`. -/
def selectPhotos (stem : α → String) (required_photo_list : List String)
    (sort_numeric : Bool) (all_images : List α) : List α × List String :=
  let ordered_stems :=
    if sort_numeric then sortedByKey required_photo_list else required_photo_list
  ordered_stems.foldl
    (fun acc s =>
      let stem_clean := pyStrip s
      match imageByStemGet stem all_images stem_clean with
      | some m => (acc.1 ++ [m], acc.2)
      | none => (acc.1, acc.2 ++ [stem_clean]))
    ([], [])

/-! ## Theorems -/

/-! ### Auto-tuner bounds and call counts -/

/-- Loop invariant of `autoTuneLoop`: the loop only ever lowers `quality` by
`QUALITY_STEP` while the result stays at least `QUALITY_MIN`, and likewise for
`max_dim`, so being inside the configured bounds is preserved to the result. -/
theorem autoTuneLoop_bounds (est : Int → Int → Int) (target_bytes : Int) :
    ∀ q d : Int, QUALITY_MIN ≤ q → q ≤ QUALITY_MAX → MAX_DIM_MIN ≤ d → d ≤ MAX_DIM_MAX →
      QUALITY_MIN ≤ (autoTuneLoop est target_bytes q d).1 ∧
      (autoTuneLoop est target_bytes q d).1 ≤ QUALITY_MAX ∧
      MAX_DIM_MIN ≤ (autoTuneLoop est target_bytes q d).2.1 ∧
      (autoTuneLoop est target_bytes q d).2.1 ≤ MAX_DIM_MAX := by
  intro q d
  induction q, d using autoTuneLoop.induct est target_bytes with
  | case1 q d e he =>
      intro h1 h2 h3 h4
      rw [autoTuneLoop.eq_def]
      simp only [he, if_true]
      exact ⟨h1, h2, h3, h4⟩
  | case2 q d e he h ih =>
      intro h1 h2 h3 h4
      rw [autoTuneLoop.eq_def]
      simp only [he, if_false, if_pos h]
      refine ih ?_ ?_ h3 h4 <;> simp only [QUALITY_MIN, QUALITY_MAX, QUALITY_STEP] at * <;> omega
  | case3 q d e he hq hd ih =>
      intro h1 h2 h3 h4
      rw [autoTuneLoop.eq_def]
      simp only [he, if_false, if_neg hq, if_pos hd]
      refine ih h1 h2 ?_ ?_ <;>
        simp only [MAX_DIM_MIN, MAX_DIM_MAX, MAX_DIM_STEP] at * <;> omega
  | case4 q d e he hq hd =>
      intro h1 h2 h3 h4
      rw [autoTuneLoop.eq_def]
      simp only [he, if_false, if_neg hq, if_neg hd]
      exact ⟨h1, h2, h3, h4⟩

/-- C1: for every image list (abstracted into the estimator `est`), target
byte count and starting parameters, `auto_tune_compression` returns a quality
within `[QUALITY_MIN, QUALITY_MAX]` and a max dimension within
`[MAX_DIM_MIN, MAX_DIM_MAX]`, including when the target is unreachable and
the tuner terminates at the floors. -/
theorem auto_tune_compression_bounds (est : Int → Int → Int)
    (target_bytes start_quality start_max_dim : Int) :
    QUALITY_MIN ≤ (auto_tune_compression est target_bytes start_quality start_max_dim).1 ∧
    (auto_tune_compression est target_bytes start_quality start_max_dim).1 ≤ QUALITY_MAX ∧
    MAX_DIM_MIN ≤ (auto_tune_compression est target_bytes start_quality start_max_dim).2.1 ∧
    (auto_tune_compression est target_bytes start_quality start_max_dim).2.1 ≤ MAX_DIM_MAX := by
  unfold auto_tune_compression
  refine autoTuneLoop_bounds est target_bytes _ _ ?_ ?_ ?_ ?_ <;>
    simp only [QUALITY_MIN, QUALITY_MAX, MAX_DIM_MIN, MAX_DIM_MAX] <;> omega

/-- Call-count bound for `autoTuneLoop`: starting from any `q ≥ QUALITY_MIN`
and `d ≥ MAX_DIM_MIN`, the loop calls the estimator at most
`(q - QUALITY_MIN) / QUALITY_STEP + (d - MAX_DIM_MIN) / MAX_DIM_STEP + 1`
times. -/
theorem autoTuneCalls_le (est : Int → Int → Int) (target_bytes : Int) :
    ∀ q d : Int, QUALITY_MIN ≤ q → MAX_DIM_MIN ≤ d →
      (autoTuneCalls est target_bytes q d : Int) ≤
        (q - QUALITY_MIN) / QUALITY_STEP + (d - MAX_DIM_MIN) / MAX_DIM_STEP + 1 := by
  intro q d
  induction q, d using autoTuneCalls.induct est target_bytes with
  | case1 q d e he =>
      intro h1 h2
      rw [autoTuneCalls.eq_def]
      simp only [he, if_true, Nat.cast_one]
      have hq : (0 : Int) ≤ (q - QUALITY_MIN) / QUALITY_STEP :=
        Int.ediv_nonneg (by omega) (by norm_num [QUALITY_STEP])
      have hd : (0 : Int) ≤ (d - MAX_DIM_MIN) / MAX_DIM_STEP :=
        Int.ediv_nonneg (by omega) (by norm_num [MAX_DIM_STEP])
      omega
  | case2 q d e he h ih =>
      intro h1 h2
      rw [autoTuneCalls.eq_def]
      simp only [he, if_false, if_pos h, Nat.cast_add, Nat.cast_one]
      have key : (q - QUALITY_MIN) / QUALITY_STEP =
          (q - QUALITY_STEP - QUALITY_MIN) / QUALITY_STEP + 1 := by
        rw [show q - QUALITY_MIN = (q - QUALITY_STEP - QUALITY_MIN) + 1 * QUALITY_STEP by ring,
          Int.add_mul_ediv_right _ _ (by norm_num [QUALITY_STEP])]
      have hrec := ih h h2
      omega
  | case3 q d e he hq hd ih =>
      intro h1 h2
      rw [autoTuneCalls.eq_def]
      simp only [he, if_false, if_neg hq, if_pos hd, Nat.cast_add, Nat.cast_one]
      have key : (d - MAX_DIM_MIN) / MAX_DIM_STEP =
          (d - MAX_DIM_STEP - MAX_DIM_MIN) / MAX_DIM_STEP + 1 := by
        rw [show d - MAX_DIM_MIN = (d - MAX_DIM_STEP - MAX_DIM_MIN) + 1 * MAX_DIM_STEP by ring,
          Int.add_mul_ediv_right _ _ (by norm_num [MAX_DIM_STEP])]
      have hrec := ih h1 hd
      have hqn : (0 : Int) ≤ (q - QUALITY_MIN) / QUALITY_STEP :=
        Int.ediv_nonneg (by omega) (by norm_num [QUALITY_STEP])
      omega
  | case4 q d e he hq hd =>
      intro h1 h2
      rw [autoTuneCalls.eq_def]
      simp only [he, if_false, if_neg hq, if_neg hd, Nat.cast_one]
      have hqn : (0 : Int) ≤ (q - QUALITY_MIN) / QUALITY_STEP :=
        Int.ediv_nonneg (by omega) (by norm_num [QUALITY_STEP])
      have hdn : (0 : Int) ≤ (d - MAX_DIM_MIN) / MAX_DIM_STEP :=
        Int.ediv_nonneg (by omega) (by norm_num [MAX_DIM_STEP])
      omega

/-- C2 (counterexample to the claim as stated): with starting quality `0`
(below the floor) the loop still makes one estimator call, but the claimed
bound evaluates to `(0 - 30) / 5 + (800 - 800) / 200 + 1 = -5`, so the bound
fails for starting parameters outside the configured bounds. -/
theorem auto_tune_calls_bound_counterexample :
    ¬ ((auto_tune_calls (fun _ _ => 1) 0 0 800 : Int) ≤
        (0 - QUALITY_MIN) / QUALITY_STEP + (800 - MAX_DIM_MIN) / MAX_DIM_STEP + 1) := by
  have hc : auto_tune_calls (fun _ _ => 1) 0 0 800 = 1 := by
    unfold auto_tune_calls
    rw [autoTuneCalls.eq_def]
    norm_num [QUALITY_MIN, QUALITY_MAX, QUALITY_STEP, MAX_DIM_MIN, MAX_DIM_MAX, MAX_DIM_STEP]
  rw [hc]
  norm_num [QUALITY_MIN, QUALITY_STEP, MAX_DIM_MIN, MAX_DIM_STEP]

/-- C2 (amended): for every estimator, target byte count and starting
parameters within the configured bounds, `auto_tune_compression` terminates
(it is a total function in this development, by the decreasing measure
`(quality - QUALITY_MIN) + (max_dim - MAX_DIM_MIN)`) and the number of Size
Estimator calls it makes is at most
`(start_quality - QUALITY_MIN) / QUALITY_STEP +
 (start_max_dimension - MAX_DIM_MIN) / MAX_DIM_STEP + 1`. -/
theorem auto_tune_calls_bounded (est : Int → Int → Int)
    (target_bytes start_quality start_max_dim : Int)
    (h1 : QUALITY_MIN ≤ start_quality) (h2 : start_quality ≤ QUALITY_MAX)
    (h3 : MAX_DIM_MIN ≤ start_max_dim) (h4 : start_max_dim ≤ MAX_DIM_MAX) :
    (auto_tune_calls est target_bytes start_quality start_max_dim : Int) ≤
      (start_quality - QUALITY_MIN) / QUALITY_STEP +
      (start_max_dim - MAX_DIM_MIN) / MAX_DIM_STEP + 1 := by
  unfold auto_tune_calls
  rw [show max QUALITY_MIN (min QUALITY_MAX start_quality) = start_quality by omega,
    show max MAX_DIM_MIN (min MAX_DIM_MAX start_max_dim) = start_max_dim by omega]
  exact autoTuneCalls_le est target_bytes start_quality start_max_dim h1 h3

/-- Witness for `auto_tune_calls_bounded` at concrete in-bounds starting
parameters. -/
theorem auto_tune_calls_bounded_witness :
    (auto_tune_calls (fun _ _ => 0) 0 50 1400 : Int) ≤
      (50 - QUALITY_MIN) / QUALITY_STEP + (1400 - MAX_DIM_MIN) / MAX_DIM_STEP + 1 :=
  auto_tune_calls_bounded (fun _ _ => 0) 0 50 1400
    (by norm_num [QUALITY_MIN]) (by norm_num [QUALITY_MAX])
    (by norm_num [MAX_DIM_MIN]) (by norm_num [MAX_DIM_MAX])

/-- C3 (counterexample to the claim as stated): with an out-of-bounds
starting quality `95`, an estimator that is within target at `(95, 800)` but
not at the clamped `(90, 800)` makes the tuner descend, so it does not return
the starting settings even though the estimate at the starting settings is
at most the target. -/
theorem auto_tune_first_iteration_counterexample :
    (fun q _ => if q = (90 : Int) then (1 : Int) else 0) 95 800 ≤ 0 ∧
    auto_tune_compression (fun q _ => if q = (90 : Int) then (1 : Int) else 0) 0 95 800 ≠
      (95, 800, (fun q _ => if q = (90 : Int) then (1 : Int) else 0) 95 800) := by
  constructor
  · norm_num
  · have hres : auto_tune_compression (fun q _ => if q = (90 : Int) then (1 : Int) else 0) 0 95 800 =
        (85, 800, 0) := by
      unfold auto_tune_compression
      rw [show max QUALITY_MIN (min QUALITY_MAX 95) = 90 by
          norm_num [QUALITY_MIN, QUALITY_MAX],
        show max MAX_DIM_MIN (min MAX_DIM_MAX 800) = 800 by
          norm_num [MAX_DIM_MIN, MAX_DIM_MAX]]
      rw [autoTuneLoop.eq_def]
      norm_num [QUALITY_MIN, QUALITY_STEP]
      rw [autoTuneLoop.eq_def]
      norm_num
    rw [hres]
    norm_num

/-- C3 (amended): for every estimator and starting parameters within the
configured bounds, if the estimate at the starting settings is at most the
target then `auto_tune_compression` returns the starting settings unchanged
on its first iteration, together with that estimate. -/
theorem auto_tune_first_iteration (est : Int → Int → Int)
    (target_bytes start_quality start_max_dim : Int)
    (h1 : QUALITY_MIN ≤ start_quality) (h2 : start_quality ≤ QUALITY_MAX)
    (h3 : MAX_DIM_MIN ≤ start_max_dim) (h4 : start_max_dim ≤ MAX_DIM_MAX)
    (h5 : est start_quality start_max_dim ≤ target_bytes) :
    auto_tune_compression est target_bytes start_quality start_max_dim =
      (start_quality, start_max_dim, est start_quality start_max_dim) := by
  unfold auto_tune_compression
  rw [show max QUALITY_MIN (min QUALITY_MAX start_quality) = start_quality by omega,
    show max MAX_DIM_MIN (min MAX_DIM_MAX start_max_dim) = start_max_dim by omega]
  rw [autoTuneLoop.eq_def]
  simp only [h5, if_true]

/-- Witness for `auto_tune_first_iteration` at a concrete estimator and
in-bounds starting parameters. -/
theorem auto_tune_first_iteration_witness :
    auto_tune_compression (fun _ _ => 7) 100 50 1400 = (50, 1400, 7) :=
  auto_tune_first_iteration (fun _ _ => 7) 100 50 1400
    (by norm_num [QUALITY_MIN]) (by norm_num [QUALITY_MAX])
    (by norm_num [MAX_DIM_MIN]) (by norm_num [MAX_DIM_MAX]) (by norm_num)

/-! ### Size estimator -/

/-- C4: for every quality and max-dimension pair within the configured
bounds, `estimate_docx_size_bytes` applied to an empty image sequence returns
exactly the fixed overhead constant; the encoder parameter is universally
quantified and unused, so no compression work is performed. -/
theorem estimate_empty_eq_overhead {α : Type} (encode : Int → Int → α → Option Nat)
    (size : α → Nat) (quality max_dim : Int)
    (_h1 : QUALITY_MIN ≤ quality) (_h2 : quality ≤ QUALITY_MAX)
    (_h3 : MAX_DIM_MIN ≤ max_dim) (_h4 : max_dim ≤ MAX_DIM_MAX) :
    estimate_docx_size_bytes encode size ([] : List α) quality max_dim =
      DOCX_OVERHEAD_BYTES := rfl

/-- Witness for `estimate_empty_eq_overhead` at concrete in-bounds settings. -/
theorem estimate_empty_eq_overhead_witness :
    estimate_docx_size_bytes (fun _ _ (_ : Nat) => none) id ([] : List Nat) 50 1400 =
      DOCX_OVERHEAD_BYTES :=
  estimate_empty_eq_overhead (fun _ _ (_ : Nat) => none) id 50 1400
    (by norm_num [QUALITY_MIN]) (by norm_num [QUALITY_MAX])
    (by norm_num [MAX_DIM_MIN]) (by norm_num [MAX_DIM_MAX])

/-- C5: for every non-empty image list in which every sampled image fails to
encode, `estimate_docx_size_bytes` returns the fallback constant, overhead
plus the flat `10_000_000` penalty.  The function is total, so no exception
is raised: the per-image `try/except` is modelled by `encode` returning
`none`. -/
theorem estimate_all_fail_fallback {α : Type} (encode : Int → Int → α → Option Nat)
    (size : α → Nat) (image_paths : List α) (quality max_dim : Int)
    (hne : image_paths ≠ [])
    (hfail : ∀ a ∈ estimateSample size image_paths, encode quality max_dim a = none) :
    estimate_docx_size_bytes encode size image_paths quality max_dim =
      DOCX_OVERHEAD_BYTES + 10000000 := by
  have hne' : image_paths.isEmpty = false := by
    cases image_paths with
    | nil => exact absurd rfl hne
    | cons a as => rfl
  have hcs : (estimateSample size image_paths).filterMap (encode quality max_dim) = [] := by
    rw [List.filterMap_eq_nil_iff]
    exact hfail
  simp only [estimate_docx_size_bytes, hne', hcs, Bool.false_eq_true, if_false,
    List.isEmpty_nil, if_true]

/-- Witness for `estimate_all_fail_fallback`: a one-element list whose only
image fails to encode. -/
theorem estimate_all_fail_fallback_witness :
    estimate_docx_size_bytes (fun _ _ (_ : Nat) => none) id [5] 50 1400 =
      DOCX_OVERHEAD_BYTES + 10000000 :=
  estimate_all_fail_fallback (fun _ _ (_ : Nat) => none) id [5] 50 1400
    (by decide) (by decide)

/-- C10: for every image list (empty or not) and every quality and
max-dimension value, the result of `estimate_docx_size_bytes` is at least the
overhead constant (and hence non-negative), on every path including the
total-sample-failure fallback. -/
theorem estimate_ge_overhead {α : Type} (encode : Int → Int → α → Option Nat)
    (size : α → Nat) (image_paths : List α) (quality max_dim : Int) :
    DOCX_OVERHEAD_BYTES ≤ estimate_docx_size_bytes encode size image_paths quality max_dim := by
  simp only [estimate_docx_size_bytes]
  split
  · exact le_refl _
  · split
    · simp [DOCX_OVERHEAD_BYTES]
    · rw [Int.le_floor]
      have hnn : (0 : ℚ) ≤
          (((estimateSample size image_paths).filterMap (encode quality max_dim)).sum : ℚ) /
            (((estimateSample size image_paths).filterMap (encode quality max_dim)).length : ℚ) *
            ((image_paths.length : ℚ)) := by
        positivity
      linarith [hnn]

/-! ### Normalization idempotence (C7) -/

/-- `Char.ofNat` of a valid scalar value below the surrogate range. -/
theorem char_toNat_ofNat (n : Nat) (h : n < 55296) : (Char.ofNat n).toNat = n := by
  rw [Char.ofNat, dif_pos (Or.inl h)]
  simp [Char.ofNatAux, Char.toNat, UInt32.toNat]

/-- `Char.isAlphanum` characterised by code-point ranges. -/
theorem isAlphanum_iff (c : Char) : c.isAlphanum = true ↔
    (65 ≤ c.toNat ∧ c.toNat ≤ 90) ∨ (97 ≤ c.toNat ∧ c.toNat ≤ 122) ∨
    (48 ≤ c.toNat ∧ c.toNat ≤ 57) := by
  simp only [Char.isAlphanum, Char.isAlpha, Char.isUpper, Char.isLower, Char.isDigit,
    Bool.or_eq_true, Bool.and_eq_true, decide_eq_true_eq, ge_iff_le,
    UInt32.le_def, BitVec.le_def]
  rw [show (UInt32.toBitVec 65).toNat = 65 from rfl, show (UInt32.toBitVec 90).toNat = 90 from rfl,
    show (UInt32.toBitVec 97).toNat = 97 from rfl, show (UInt32.toBitVec 122).toNat = 122 from rfl,
    show (UInt32.toBitVec 48).toNat = 48 from rfl, show (UInt32.toBitVec 57).toNat = 57 from rfl,
    or_assoc]
  exact Iff.rfl

/-- `Char.toLower` rewritten with code-point arithmetic. -/
theorem toLower_eq (c : Char) :
    c.toLower = if 65 ≤ c.toNat ∧ c.toNat ≤ 90 then Char.ofNat (c.toNat + 32) else c := by
  unfold Char.toLower
  simp only [ge_iff_le]

/-- Code point of `Char.toLower`. -/
theorem toLower_toNat (c : Char) :
    c.toLower.toNat = if 65 ≤ c.toNat ∧ c.toNat ≤ 90 then c.toNat + 32 else c.toNat := by
  rw [toLower_eq]
  split
  · next hc => rw [char_toNat_ofNat _ (by omega)]
  · rfl

/-- Lower-casing preserves alphanumeric characters. -/
theorem toLower_alnum (c : Char) (h : c.isAlphanum = true) :
    (c.toLower).isAlphanum = true := by
  rw [isAlphanum_iff] at h ⊢
  rw [toLower_toNat]
  split <;> omega

/-- `Char.toLower` is idempotent. -/
theorem toLower_idem (c : Char) : c.toLower.toLower = c.toLower := by
  have h1 := toLower_toNat c
  have h2 := toLower_toNat c.toLower
  have key : c.toLower.toLower.toNat = c.toLower.toNat := by
    rw [h2, h1]
    split <;> (try split) <;> omega
  exact Char.ext (UInt32.ext key)

/-- Lower-casing keeps ASCII characters in ASCII. -/
theorem toLower_ascii (c : Char) (h : c.toNat < 128) : c.toLower.toNat < 128 := by
  rw [toLower_toNat]
  split <;> omega

/-- On ASCII characters Python's `isalnum` agrees with `Char.isAlphanum`. -/
theorem pyIsAlnum_ascii (c : Char) (h : c.toNat < 128) : pyIsAlnum c = c.isAlphanum := by
  unfold pyIsAlnum
  rw [if_neg (by omega), if_neg (by omega)]

/-- On ASCII characters Python's `lower` is the single-character `Char.toLower`. -/
theorem pyLowerChar_ascii (c : Char) (h : c.toNat < 128) : pyLowerChar c = [c.toLower] := by
  unfold pyLowerChar
  rw [if_neg (by omega)]

/-- On ASCII input the cleaning step coincides with the ASCII
filter-then-lower map. -/
theorem cleanAlnumLower_ascii (cs : List Char) (h : ∀ c ∈ cs, c.toNat < 128) :
    cleanAlnumLower cs = (cs.filter Char.isAlphanum).map Char.toLower := by
  induction cs with
  | nil => rfl
  | cons c rest ih =>
      have hc := h c (List.mem_cons_self c rest)
      have hrest : ∀ x ∈ rest, x.toNat < 128 :=
        fun x hx => h x (List.mem_cons.mpr (Or.inr hx))
      have ihr : ((rest.filter pyIsAlnum).map pyLowerChar).flatten =
          (rest.filter Char.isAlphanum).map Char.toLower := ih hrest
      unfold cleanAlnumLower
      rw [List.filter_cons, List.filter_cons, pyIsAlnum_ascii c hc]
      by_cases hca : c.isAlphanum = true
      · rw [if_pos hca, if_pos hca, List.map_cons, List.flatten_cons, pyLowerChar_ascii c hc,
          List.singleton_append, List.map_cons, ihr]
      · rw [if_neg hca, if_neg hca, ihr]

/-- Every character of the ASCII-cleaned string is alphanumeric. -/
theorem cleanAscii_all_alnum (cs : List Char) :
    ∀ c ∈ (cs.filter Char.isAlphanum).map Char.toLower, c.isAlphanum = true := by
  intro c hc
  obtain ⟨b, hb, rfl⟩ := List.mem_map.mp hc
  exact toLower_alnum b (List.mem_filter.mp hb).2

/-- Characters of the ASCII-cleaned string are fixed by lower-casing. -/
theorem cleanAscii_all_lower (cs : List Char) :
    ∀ c ∈ (cs.filter Char.isAlphanum).map Char.toLower, c.toLower = c := by
  intro c hc
  obtain ⟨b, _, rfl⟩ := List.mem_map.mp hc
  exact toLower_idem b

/-- The ASCII-cleaned string of an ASCII input is ASCII. -/
theorem cleanAscii_all_ascii (cs : List Char) (h : ∀ c ∈ cs, c.toNat < 128) :
    ∀ c ∈ (cs.filter Char.isAlphanum).map Char.toLower, c.toNat < 128 := by
  intro c hc
  obtain ⟨b, hb, rfl⟩ := List.mem_map.mp hc
  exact toLower_ascii b (h b (List.mem_filter.mp hb).1)

/-- The ASCII filter-then-lower map fixes lists of lower-case alphanumerics. -/
theorem cleanAscii_cleaned (l : List Char)
    (halnum : ∀ c ∈ l, c.isAlphanum = true) (hlower : ∀ c ∈ l, c.toLower = c) :
    (l.filter Char.isAlphanum).map Char.toLower = l := by
  rw [List.filter_eq_self.mpr halnum]
  calc l.map Char.toLower = l.map id := List.map_congr_left hlower
    _ = l := List.map_id l

/-- All characters of the report-normalized ASCII string are ASCII. -/
theorem extractNormalizeL_ascii (cs : List Char) (h : ∀ c ∈ cs, c.toNat < 128) :
    ∀ c ∈ extractNormalizeL cs, c.toNat < 128 := by
  intro c hc
  have hcl := cleanAscii_all_ascii cs h
  unfold extractNormalizeL hyphenAfter3 at hc
  rw [cleanAlnumLower_ascii cs h] at hc
  split at hc
  · rcases List.mem_append.mp hc with h1 | h1
    · exact hcl c (List.take_subset 3 _ h1)
    · rcases List.mem_cons.mp h1 with h2 | h2
      · rw [h2]; decide
      · exact hcl c (List.drop_subset 3 _ h2)
  · exact hcl c hc

/-- Re-cleaning the report-normalized ASCII string recovers the cleaned
string: the inserted hyphen is dropped by the alphanumeric filter and the
remaining characters are already lower-case ASCII alphanumerics. -/
theorem cleanAlnumLower_extractNormalizeL (cs : List Char)
    (h : ∀ c ∈ cs, c.toNat < 128) :
    cleanAlnumLower (extractNormalizeL cs) = cleanAlnumLower cs := by
  have halnum := cleanAscii_all_alnum cs
  have hlower := cleanAscii_all_lower cs
  rw [cleanAlnumLower_ascii _ (extractNormalizeL_ascii cs h), cleanAlnumLower_ascii cs h]
  unfold extractNormalizeL hyphenAfter3
  rw [cleanAlnumLower_ascii cs h]
  split
  · rw [List.filter_append, List.filter_cons_of_neg (by decide), List.map_append,
      cleanAscii_cleaned (((cs.filter Char.isAlphanum).map Char.toLower).take 3)
        (fun c hc => halnum c (List.take_subset 3 _ hc))
        (fun c hc => hlower c (List.take_subset 3 _ hc)),
      cleanAscii_cleaned (((cs.filter Char.isAlphanum).map Char.toLower).drop 3)
        (fun c hc => halnum c (List.drop_subset 3 _ hc))
        (fun c hc => hlower c (List.drop_subset 3 _ hc)),
      List.take_append_drop]
  · exact cleanAscii_cleaned _ halnum hlower

/-- The report-list normalization is idempotent at character level on ASCII
input. -/
theorem extractNormalizeL_idem (cs : List Char) (h : ∀ c ∈ cs, c.toNat < 128) :
    extractNormalizeL (extractNormalizeL cs) = extractNormalizeL cs := by
  show hyphenAfter3 (cleanAlnumLower (extractNormalizeL cs)) = extractNormalizeL cs
  rw [cleanAlnumLower_extractNormalizeL cs h]
  rfl

/-- `splitOnDashL` never returns the empty list of segments. -/
theorem splitOnDashL_ne_nil (cs : List Char) : splitOnDashL cs ≠ [] := by
  cases cs with
  | nil => simp [splitOnDashL]
  | cons c rest =>
      show consSeg c (splitOnDashL rest) ≠ []
      cases splitOnDashL rest with
      | nil => simp [consSeg]
      | cons seg segs =>
          simp only [consSeg]
          split <;> simp

/-- No segment produced by `splitOnDashL` contains the separator. -/
theorem splitOnDashL_no_dash_mem (cs : List Char) :
    ∀ seg ∈ splitOnDashL cs, '-' ∉ seg := by
  induction cs with
  | nil =>
      intro seg hseg
      simp only [splitOnDashL, List.mem_singleton] at hseg
      simp [hseg]
  | cons c rest ih =>
      intro seg hseg
      have hseg' : seg ∈ consSeg c (splitOnDashL rest) := hseg
      cases hrec : splitOnDashL rest with
      | nil => exact absurd hrec (splitOnDashL_ne_nil rest)
      | cons seg0 segs =>
          rw [hrec] at hseg'
          simp only [consSeg] at hseg'
          by_cases hc : c = '-'
          · rw [if_pos hc] at hseg'
            rcases List.mem_cons.mp hseg' with h | h
            · simp [h]
            · exact ih seg (hrec ▸ h)
          · rw [if_neg hc] at hseg'
            rcases List.mem_cons.mp hseg' with h | h
            · subst h
              intro hmem
              rcases List.mem_cons.mp hmem with h' | h'
              · exact hc h'.symm
              · exact ih seg0 (hrec ▸ List.mem_cons_self seg0 segs) h'
            · exact ih seg (hrec ▸ List.mem_cons.mpr (Or.inr h))

/-- A dash-free string is a single segment. -/
theorem splitOnDashL_of_no_dash (cs : List Char) (h : '-' ∉ cs) :
    splitOnDashL cs = [cs] := by
  induction cs with
  | nil => rfl
  | cons c rest ih =>
      have hc : ¬ c = '-' := fun hc => h (hc ▸ List.mem_cons_self c rest)
      have hrest : '-' ∉ rest := fun hm => h (List.mem_cons.mpr (Or.inr hm))
      show consSeg c (splitOnDashL rest) = [c :: rest]
      rw [ih hrest]
      simp only [consSeg]
      rw [if_neg hc]

/-- The last segment of `"100-" ++ u` is the last segment of `u`. -/
theorem splitOnDashL_last_after_roll (u : List Char) :
    (splitOnDashL ('1' :: '0' :: '0' :: '-' :: u)).getLastD [] =
      (splitOnDashL u).getLastD [] := by
  cases hrec : splitOnDashL u with
  | nil => exact absurd hrec (splitOnDashL_ne_nil u)
  | cons seg segs =>
      show (consSeg '1' (consSeg '0' (consSeg '0' (consSeg '-' (splitOnDashL u))))).getLastD [] =
        (seg :: segs).getLastD []
      rw [hrec]
      show (consSeg '1' (consSeg '0' (consSeg '0' ([] :: seg :: segs)))).getLastD [] =
        (seg :: segs).getLastD []
      show (consSeg '1' (consSeg '0' (('0' :: []) :: seg :: segs))).getLastD [] =
        (seg :: segs).getLastD []
      show (consSeg '1' (('0' :: '0' :: []) :: seg :: segs)).getLastD [] =
        (seg :: segs).getLastD []
      show ((('1' :: '0' :: '0' :: []) :: seg :: segs)).getLastD [] =
        (seg :: segs).getLastD []
      simp [List.getLastD_cons]

/-- The last segment of any split is dash-free. -/
theorem last_segment_no_dash (cs : List Char) :
    '-' ∉ (splitOnDashL cs).getLastD [] := by
  cases hrec : splitOnDashL cs with
  | nil => exact absurd hrec (splitOnDashL_ne_nil cs)
  | cons seg segs =>
      have hmem : (seg :: segs).getLastD [] ∈ seg :: segs := by
        rw [List.getLastD_cons]
        exact List.getLastD_mem_cons segs seg
      exact splitOnDashL_no_dash_mem cs _ (hrec ▸ hmem)

/-- `zfill` to width 4 keeps the string dash-free. -/
theorem zfillL_no_dash (cs : List Char) (h : '-' ∉ cs) : '-' ∉ zfillL cs 4 := by
  unfold zfillL
  split
  · exact h
  · cases cs with
    | nil =>
        intro hm
        have := List.eq_of_mem_replicate hm
        simp at this
    | cons c rest =>
        have hc : ¬ c = '-' := fun hc => h (hc ▸ List.mem_cons_self c rest)
        have hrest : '-' ∉ rest := fun hm => h (List.mem_cons.mpr (Or.inr hm))
        simp only [zfillPad]
        split
        · intro hm
          rcases List.mem_cons.mp hm with h' | h'
          · exact hc h'.symm
          · rcases List.mem_append.mp h' with h'' | h''
            · have := List.eq_of_mem_replicate h''
              simp at this
            · exact hrest h''
        · intro hm
          rcases List.mem_append.mp hm with h'' | h''
          · have := List.eq_of_mem_replicate h''
            simp at this
          · exact h h''

/-- `zfill` to width 4 always produces at least 4 characters. -/
theorem zfillL_length (cs : List Char) : 4 ≤ (zfillL cs 4).length := by
  unfold zfillL
  split
  · next h => exact h
  · next h =>
      cases cs with
      | nil => simp [zfillPad]
      | cons c rest =>
          simp only [zfillPad]
          simp only [List.length_cons] at h
          split
          · simp only [List.length_cons, List.length_append, List.length_replicate]
            omega
          · simp only [List.length_append, List.length_replicate, List.length_cons]
            omega

/-- `zfill` to width 4 of a string of length at least 4 is the identity. -/
theorem zfillL_of_long (cs : List Char) (h : 4 ≤ cs.length) : zfillL cs 4 = cs := by
  unfold zfillL
  rw [if_pos h]

/-- The move/cleanup normalization is idempotent at character level. -/
theorem normalizeMoveL_idem (cs : List Char) :
    normalizeMoveL (normalizeMoveL cs) = normalizeMoveL cs := by
  show normalizeMoveL ('1' :: '0' :: '0' :: '-' ::
    zfillL ((splitOnDashL cs).getLastD []) 4) = normalizeMoveL cs
  have hnd : '-' ∉ zfillL ((splitOnDashL cs).getLastD []) 4 :=
    zfillL_no_dash _ (last_segment_no_dash cs)
  unfold normalizeMoveL
  rw [splitOnDashL_last_after_roll, splitOnDashL_of_no_dash _ hnd,
    List.getLastD_cons, List.getLastD_nil, zfillL_of_long _ (zfillL_length _)]

/-- C7 (counterexample to the claim as stated): the report-list
normalization is not idempotent on the string consisting of U+0130 (LATIN
CAPITAL LETTER I WITH DOT ABOVE).  `'İ'.isalnum()` is true and `'İ'.lower()`
is the two-character string `'i'` + U+0307 (COMBINING DOT ABOVE), so the
first normalization yields `"i"` + U+0307; the second drops the combining
dot (not alphanumeric), yielding the different string `"i"`. -/
theorem normalize_idempotent_counterexample :
    ¬ (extract_normalize (extract_normalize (String.mk [Char.ofNat 304])) =
         extract_normalize (String.mk [Char.ofNat 304]) ∧
       normalize_photo_number (normalize_photo_number (String.mk [Char.ofNat 304])) =
         normalize_photo_number (String.mk [Char.ofNat 304])) := by
  decide

/-- C7 (amended): for every string `x`, the per-element move/cleanup
normalization of move_photos.py (line 34) is idempotent, and for every `x`
consisting of ASCII characters — where Python's `str.isalnum`/`str.lower`
act exactly as the ASCII case mapping — the report-list normalization of
extract_photo_nrs.py (lines 53-55) is idempotent too:
`normalize (normalize x) = normalize x`.  (On general Unicode input the
report path is not idempotent; see the counterexample at U+0130.) -/
theorem normalize_idempotent (x : String) :
    ((∀ c ∈ x.data, c.toNat < 128) →
      extract_normalize (extract_normalize x) = extract_normalize x) ∧
    normalize_photo_number (normalize_photo_number x) = normalize_photo_number x :=
  ⟨fun h => congrArg String.mk (extractNormalizeL_idem x.data h),
   congrArg String.mk (normalizeMoveL_idem x.data)⟩

/-- Witness for `normalize_idempotent` at the concrete ASCII string
"DSCN3801". -/
theorem normalize_idempotent_witness :
    extract_normalize (extract_normalize "DSCN3801") = extract_normalize "DSCN3801" ∧
    normalize_photo_number (normalize_photo_number "DSCN3801") =
      normalize_photo_number "DSCN3801" :=
  ⟨(normalize_idempotent "DSCN3801").1 (by decide),
   (normalize_idempotent "DSCN3801").2⟩

/-! ### Natural sort -/

/-- C6 (counterexample to the claim as stated): `re.split(r"(\d+)", ...)`
with a capturing group appends a trailing empty string when the input ends in
digits, so `natural_sort_key_string "DSCN3801"` is not the two-element list
`["DSCN", 3801]` the claim states. -/
theorem natural_sort_key_counterexample :
    natural_sort_key_string "DSCN3801" ≠ [SortTok.str "DSCN", SortTok.num 3801] := by
  decide

/-- C6 (amended): `natural_sort_key_string "DSCN3801"` is
`["DSCN", 3801, ""]` (the trailing empty string comes from `re.split` with a
capturing group on an input ending in digits), and sorting
`["img10", "img2"]` by this key yields `["img2", "img10"]`. -/
theorem natural_sort_key_values :
    natural_sort_key_string "DSCN3801" =
      [SortTok.str "DSCN", SortTok.num 3801, SortTok.str ""] ∧
    sortedByKey ["img10", "img2"] = ["img2", "img10"] := by
  decide

/-! ### Move/cleanup normalizer -/

/-- C8: evaluation of `normalize_photo_numbers` at the documented input
`["100_0006", "100-7"]`.  The code returns
`{"100-100_0006", "100-0007"}`, not the `{"100-0006", "100-0007"}` its own
docstring and comments promise: line 34 of move_photos.py omits the
`strip().lower().replace('_', '-')` step described in its comment, so the
`_` separator is never standardised to `-`. -/
theorem normalize_photo_numbers_failing_input :
    normalize_photo_numbers ["100_0006", "100-7"] = {"100-100_0006", "100-0007"} ∧
    normalize_photo_numbers ["100_0006", "100-7"] ≠ {"100-0006", "100-0007"} := by
  decide

/-! ### Selection/matching -/

/-- C9: with available image identifiers `["1", "2", "3"]` and required list
`["3", "4", "1"]` with numeric ordering disabled, the selection loop returns
the matched images in required-list order `["3", "1"]` (image `"4"` absent)
and the unmatched list `["4"]`; the unmatched entry is collected and
processing continues to match `"1"` afterwards. -/
theorem select_photos_example :
    selectPhotos id ["3", "4", "1"] false ["1", "2", "3"] = (["3", "1"], ["4"]) := by
  decide
